import Mathlib

/-!
Verification development for the ContainerMonitor repository.

Shallow embedding of the monitor lifecycle subsystem:
  - container_monitor.go : the per-container monitor (TContainerMonitor) with
    its two divergent copies of GetOpt and readStream,
  - main.go : the reconciliation loop, the Metric Sink handlers
    (containerStatisticRead, containerStopped) and the numeric helpers
    (calculateCPUPercentUnix, stateToValue),
  - structs.go : the statistics record and the TThread capability set.

Conventions of the embedding:
  - Go float64 arithmetic is embedded as exact rationals (the values exercised
    by the spec are integers and exact small fractions);
  - uint64 counters are embedded as Nat and cast to ℚ where the Go code casts
    to float64;
  - callback invocation (OnStatRead / OnRemove) is recorded as an emitted
    Event instead of calling a stored function pointer;
  - external collaborators (the Docker client, the JSON decoder) are supplied
    as explicit environment values describing the outcome of each call;
  - a Go panic (out-of-range string slice) is modelled as an Option none.
-/

namespace ContainerMonitor

/-- Per-core CPU accounting (docker types.CPUUsage): running total and the
per-logical-core usage list; uint64 counters embedded as Nat. -/
structure TCPUUsage where
  TotalUsage : Nat
  PercpuUsage : List Nat
deriving DecidableEq

/-- CPU accounting block (docker types.CPUStats): container usage plus
system-wide usage. -/
structure TCPUStats where
  CPUUsage : TCPUUsage
  SystemUsage : Nat
deriving DecidableEq

/-- Memory accounting block (docker types.MemoryStats): usage and limit. -/
structure TMemoryStats where
  Usage : Nat
  Limit : Nat
deriving DecidableEq

/-- TContainerStatistic from structs.go. Only the fields read by the code
under verification are carried; the remaining pass-through fields of external
docker types (timestamps, blkio, pids, storage, networks) are never consulted
by main.go or container_monitor.go and are elided. -/
structure TContainerStatistic where
  Id : String
  Name : String
  CPUStats : TCPUStats
  CPUStatsPre : TCPUStats
  MemoryStats : TMemoryStats
  Labels : List (String × String)
  RunningState : String
deriving DecidableEq

/-- Value carried by a TOpt (Go interface type): the code stores either the
monitor name (a string) or the label mapping. -/
inductive OptValue where
  | str (s : String)
  | labels (l : List (String × String))
deriving DecidableEq

/-- TOpt: a named option value. -/
structure TOpt where
  Name : String
  Value : OptValue
deriving DecidableEq

/-- TContainerMonitor state: id, resolved name, cached labels, whether a
Docker client session is held (cli field is non-nil), and the cooperative
stop flag. The two callback fields are modelled by the Event stream. -/
structure TContainerMonitor where
  Id : String
  Name : String
  Labels : List (String × String)
  cli : Bool
  stop : Bool
deriving DecidableEq

/-- Callback invocations emitted by monitor code. -/
inductive Event where
  | onStatRead (stat : TContainerStatistic)
  | onRemove (id : String)
deriving DecidableEq

/-- SetOpt (identical in both copies of container_monitor.go): always returns
the Unknown option error, touching nothing. -/
def SetOpt (m : TContainerMonitor) (opt : TOpt) : TContainerMonitor × Option String :=
  (m, some ("Unknown option: " ++ opt.Name))

/-- GetOpt, first copy of container_monitor.go (lines 30-45): name and labels
options, nil for anything else, no mutation. -/
def GetOpt (m : TContainerMonitor) (name : String) : TContainerMonitor × Option TOpt :=
  if name = "name" then
    (m, some { Name := "name", Value := OptValue.str m.Name })
  else if name = "labels" then
    (m, some { Name := "labels", Value := OptValue.labels m.Labels })
  else
    (m, none)

/-- GetOpt, second copy of container_monitor.go (lines 166-183): the same two
cases, but on fall-through past the switch it assigns
m.Id = strconv.Itoa(0) and m.Name = "" before returning nil. -/
def GetOpt2 (m : TContainerMonitor) (name : String) : TContainerMonitor × Option TOpt :=
  if name = "name" then
    (m, some { Name := "name", Value := OptValue.str m.Name })
  else if name = "labels" then
    (m, some { Name := "labels", Value := OptValue.labels m.Labels })
  else
    ({ m with Id := "0", Name := "" }, none)

/-- Close on the Docker client (github.com/docker/docker/client.Client.Close):
closes idle transport connections and always returns a nil error. -/
def clientClose : Option String :=
  none

/-- Stop (identical in both copies): set the stop flag; return nil when no
client is held, else the result of cli.Close(). The empty Event list records
that Stop invokes no callback. -/
def Stop (m : TContainerMonitor) : TContainerMonitor × List Event × Option String :=
  let m := { m with stop := true }
  if m.cli then (m, [], clientClose) else (m, [], none)

/-- Outcome of the external calls made by init: whether
client.NewClientWithOpts(client.FromEnv) succeeds, and the labels returned by
the initial ContainerInspect (none models an inspect error). -/
structure InitEnv where
  newClient : Option Unit
  inspectLabels : Option (List (String × String))

/-- Error taxonomy of Start, following the spec names for the three errors the
Go code returns (the configuration error string, the NewClientWithOpts error,
the ContainerInspect error). -/
inductive ExecError where
  | configurationError
  | connectionError
  | inspectError
deriving DecidableEq

/-- init (identical in both copies): reject an empty id, acquire a client
session, then fetch and store the container labels. -/
def init (env : InitEnv) (m : TContainerMonitor) : TContainerMonitor × Option ExecError :=
  if m.Id = "" then
    (m, some ExecError.configurationError)
  else
    match env.newClient with
    | none => (m, some ExecError.connectionError)
    | some _ =>
      let m1 := { m with cli := true }
      match env.inspectLabels with
      | none => (m1, some ExecError.inspectError)
      | some lbls => ({ m1 with Labels := lbls }, none)

/-- Exec (identical in both copies): init, then clear the stop flag and spawn
readStream on its own goroutine; returns immediately. The Bool result records
whether the read loop was launched. -/
def Exec (env : InitEnv) (m : TContainerMonitor) : TContainerMonitor × Option ExecError × Bool :=
  match init env m with
  | (m1, some e) => (m1, some e, false)
  | (m1, none) => ({ m1 with stop := false }, none, true)

/-- calculateCPUPercentUnix from main.go (lines 315-331): deltas of container
and system CPU counters; when both are positive, the ratio scaled to percent
and, when the per-core list is non-empty, multiplied by the core count. -/
def calculateCPUPercentUnix (stat : TContainerStatistic) : ℚ :=
  let cpuDelta : ℚ :=
    (stat.CPUStats.CPUUsage.TotalUsage : ℚ) - (stat.CPUStatsPre.CPUUsage.TotalUsage : ℚ)
  let systemDelta : ℚ :=
    (stat.CPUStats.SystemUsage : ℚ) - (stat.CPUStatsPre.SystemUsage : ℚ)
  if 0 < systemDelta ∧ 0 < cpuDelta then
    if 0 < stat.CPUStats.CPUUsage.PercpuUsage.length then
      cpuDelta / systemDelta * 100 * (stat.CPUStats.CPUUsage.PercpuUsage.length : ℚ)
    else
      cpuDelta / systemDelta * 100
  else
    0

/-- stateToValue from main.go (lines 333-352): the lifecycle status mapping;
the Go switch is a sequential comparison chain with default -1. -/
def stateToValue (state : String) : ℚ :=
  if state = "created" then 0
  else if state = "running" then 1
  else if state = "paused" then 2
  else if state = "restarting" then 3
  else if state = "removing" then 4
  else if state = "exited" then 5
  else if state = "dead" then 6
  else -1

/-- C10: SetOpt rejects every option with a non-nil Unknown option error and
leaves every monitor field unchanged, for every monitor state and option. -/
theorem claim10_setOpt_rejects_all (m : TContainerMonitor) (opt : TOpt) :
    SetOpt m opt = (m, some ("Unknown option: " ++ opt.Name)) :=
  rfl

/-- C5: stateToValue is total and maps the seven lifecycle strings to 0..6 and
every other string to -1. -/
theorem claim5_stateToValue_mapping (s : String) :
    stateToValue "created" = 0 ∧ stateToValue "running" = 1 ∧
    stateToValue "paused" = 2 ∧ stateToValue "restarting" = 3 ∧
    stateToValue "removing" = 4 ∧ stateToValue "exited" = 5 ∧
    stateToValue "dead" = 6 ∧
    (s ≠ "created" → s ≠ "running" → s ≠ "paused" → s ≠ "restarting" →
     s ≠ "removing" → s ≠ "exited" → s ≠ "dead" → stateToValue s = -1) := by
  refine ⟨by decide, by decide, by decide, by decide, by decide, by decide, by decide, ?_⟩
  intro h1 h2 h3 h4 h5 h6 h7
  simp [stateToValue, h1, h2, h3, h4, h5, h6, h7]

/-- Witness for C5 at the concrete unrecognized status string. -/
theorem claim5_witness : stateToValue "unknown" = -1 :=
  (claim5_stateToValue_mapping "unknown").2.2.2.2.2.2.2
    (by decide) (by decide) (by decide) (by decide) (by decide) (by decide) (by decide)

/-- Outcome of one decoder.Decode call: a decoded record, end-of-stream, or a
genuine decode error. -/
inductive DecodeResult where
  | ok (stat : TContainerStatistic)
  | eof
  | err (msg : String)
deriving DecidableEq

/-- External input consumed by one iteration of the read loop: whether a
concurrent Stop() landed before this iteration's stop-flag check, the decoder
outcome, and the ContainerInspect outcome (none models an inspect error, some
s the lifecycle status string). -/
structure Tick where
  stopRequested : Bool
  decode : DecodeResult
  inspect : Option String
deriving DecidableEq

/-- How a bounded run of the first copy's loop ended. -/
inductive LoopExit where
  | terminated
  | exhausted
deriving DecidableEq

/-- Loop body of readStream, first copy (lines 102-133): stop check, decode,
inspect, then merge status, lazily fill the name, attach labels, emit the
snapshot. Every in-loop failure returns out of readStream. exhausted means the
supplied tick trace ended with the loop still running. -/
def runLoop1 (m : TContainerMonitor) : List Tick → TContainerMonitor × List Event × LoopExit
  | [] => (m, [], LoopExit.exhausted)
  | t :: ts =>
    let m := if t.stopRequested then (Stop m).1 else m
    if m.stop then (m, [], LoopExit.terminated)
    else
      match t.decode with
      | DecodeResult.eof => (m, [], LoopExit.terminated)
      | DecodeResult.err _ => (m, [], LoopExit.terminated)
      | DecodeResult.ok stat =>
        match t.inspect with
        | none => (m, [], LoopExit.terminated)
        | some status =>
          let stat1 := { stat with RunningState := status }
          let m := if m.Name = "" then { m with Name := stat1.Name } else m
          let stat2 := { stat1 with Labels := m.Labels }
          let r := runLoop1 m ts
          (r.1, Event.onStatRead stat2 :: r.2.1, r.2.2)

/-- Overall outcome of a readStream run. -/
inductive StreamOutcome where
  | streamFailed
  | running
  | finished
deriving DecidableEq

/-- readStream, first copy (lines 85-134): if ContainerStats fails, return with
no callback; otherwise a deferred OnRemove(m.Id) fires whenever the function
returns, i.e. on every loop exit. -/
def readStream1 (streamOk : Bool) (m : TContainerMonitor) (ticks : List Tick) :
    TContainerMonitor × List Event × StreamOutcome :=
  if streamOk then
    match runLoop1 m ticks with
    | (m1, evs, LoopExit.terminated) =>
      (m1, evs ++ [Event.onRemove m1.Id], StreamOutcome.finished)
    | (m1, evs, LoopExit.exhausted) => (m1, evs, StreamOutcome.running)
  else
    (m, [], StreamOutcome.streamFailed)

/-- How a bounded run of the second copy's loop ended: break falls through to
the trailing OnRemove, return skips it. -/
inductive Exit2 where
  | broke
  | returned
  | exhausted
deriving DecidableEq

/-- Loop body of readStream, second copy (lines 231-263): stop check breaks;
a decode error or EOF sets the stop flag and breaks; a failed ContainerInspect
does a bare return; otherwise the same merge-and-emit as the first copy. -/
def runLoop2 (m : TContainerMonitor) : List Tick → TContainerMonitor × List Event × Exit2
  | [] => (m, [], Exit2.exhausted)
  | t :: ts =>
    let m := if t.stopRequested then (Stop m).1 else m
    if m.stop then (m, [], Exit2.broke)
    else
      match t.decode with
      | DecodeResult.eof => ({ m with stop := true }, [], Exit2.broke)
      | DecodeResult.err _ => ({ m with stop := true }, [], Exit2.broke)
      | DecodeResult.ok stat =>
        match t.inspect with
        | none => (m, [], Exit2.returned)
        | some status =>
          let stat1 := { stat with RunningState := status }
          let m := if m.Name = "" then { m with Name := stat1.Name } else m
          let stat2 := { stat1 with Labels := m.Labels }
          let r := runLoop2 m ts
          (r.1, Event.onStatRead stat2 :: r.2.1, r.2.2)

/-- readStream, second copy (lines 223-267): OnRemove(m.Id) is invoked after
the for loop, so only on the break paths; the return on a failed
ContainerInspect leaves readStream without invoking it. -/
def readStream2 (streamOk : Bool) (m : TContainerMonitor) (ticks : List Tick) :
    TContainerMonitor × List Event × StreamOutcome :=
  if streamOk then
    match runLoop2 m ticks with
    | (m1, evs, Exit2.broke) =>
      (m1, evs ++ [Event.onRemove m1.Id], StreamOutcome.finished)
    | (m1, evs, Exit2.returned) => (m1, evs, StreamOutcome.finished)
    | (m1, evs, Exit2.exhausted) => (m1, evs, StreamOutcome.running)
  else
    (m, [], StreamOutcome.streamFailed)

/-- C4: when both CPU deltas are positive the result is
(cpuDelta / systemDelta) * 100, scaled by the per-core list length when that
list is non-empty; otherwise the result is 0. -/
theorem claim4_cpuPercent_formula (stat : TContainerStatistic) :
    (0 < (stat.CPUStats.CPUUsage.TotalUsage : ℚ) - (stat.CPUStatsPre.CPUUsage.TotalUsage : ℚ) →
     0 < (stat.CPUStats.SystemUsage : ℚ) - (stat.CPUStatsPre.SystemUsage : ℚ) →
     calculateCPUPercentUnix stat =
       if 0 < stat.CPUStats.CPUUsage.PercpuUsage.length then
         ((stat.CPUStats.CPUUsage.TotalUsage : ℚ) - (stat.CPUStatsPre.CPUUsage.TotalUsage : ℚ)) /
           ((stat.CPUStats.SystemUsage : ℚ) - (stat.CPUStatsPre.SystemUsage : ℚ)) * 100 *
           (stat.CPUStats.CPUUsage.PercpuUsage.length : ℚ)
       else
         ((stat.CPUStats.CPUUsage.TotalUsage : ℚ) - (stat.CPUStatsPre.CPUUsage.TotalUsage : ℚ)) /
           ((stat.CPUStats.SystemUsage : ℚ) - (stat.CPUStatsPre.SystemUsage : ℚ)) * 100) ∧
    (((stat.CPUStats.CPUUsage.TotalUsage : ℚ) - (stat.CPUStatsPre.CPUUsage.TotalUsage : ℚ) ≤ 0 ∨
      (stat.CPUStats.SystemUsage : ℚ) - (stat.CPUStatsPre.SystemUsage : ℚ) ≤ 0) →
     calculateCPUPercentUnix stat = 0) := by
  constructor
  · intro hc hs
    have hpos : 0 < (stat.CPUStats.SystemUsage : ℚ) - (stat.CPUStatsPre.SystemUsage : ℚ) ∧
        0 < (stat.CPUStats.CPUUsage.TotalUsage : ℚ) - (stat.CPUStatsPre.CPUUsage.TotalUsage : ℚ) :=
      ⟨hs, hc⟩
    simp only [calculateCPUPercentUnix, if_pos hpos]
  · intro h
    have hneg : ¬(0 < (stat.CPUStats.SystemUsage : ℚ) - (stat.CPUStatsPre.SystemUsage : ℚ) ∧
        0 < (stat.CPUStats.CPUUsage.TotalUsage : ℚ) - (stat.CPUStatsPre.CPUUsage.TotalUsage : ℚ)) := by
      rcases h with h | h
      · exact fun hcon => absurd hcon.2 (not_lt.mpr h)
      · exact fun hcon => absurd hcon.1 (not_lt.mpr h)
    simp only [calculateCPUPercentUnix, if_neg hneg]

/-- Witness for C4 at the three concrete samples of the spec: totals 150/100,
system 2000/1000 give 5 with no per-core entries and 20 with four; a zero
CPU delta gives 0. -/
theorem claim4_witness :
    calculateCPUPercentUnix
      { Id := "c", Name := "n", CPUStats := ⟨⟨150, []⟩, 2000⟩,
        CPUStatsPre := ⟨⟨100, []⟩, 1000⟩, MemoryStats := ⟨0, 0⟩,
        Labels := [], RunningState := "" } = 5 ∧
    calculateCPUPercentUnix
      { Id := "c", Name := "n", CPUStats := ⟨⟨150, [1, 2, 3, 4]⟩, 2000⟩,
        CPUStatsPre := ⟨⟨100, []⟩, 1000⟩, MemoryStats := ⟨0, 0⟩,
        Labels := [], RunningState := "" } = 20 ∧
    calculateCPUPercentUnix
      { Id := "c", Name := "n", CPUStats := ⟨⟨100, []⟩, 2000⟩,
        CPUStatsPre := ⟨⟨100, []⟩, 1000⟩, MemoryStats := ⟨0, 0⟩,
        Labels := [], RunningState := "" } = 0 := by
  refine ⟨?_, ?_, ?_⟩
  · rw [(claim4_cpuPercent_formula _).1 (by norm_num) (by norm_num)]
    norm_num
  · rw [(claim4_cpuPercent_formula _).1 (by norm_num) (by norm_num)]
    norm_num
  · exact (claim4_cpuPercent_formula _).2 (Or.inl (by norm_num))

/-- C6: Stop twice returns no error either time, emits no callback event
(hence no OnRemoved), the second call leaves the state of the first call
unchanged, and a single Stop only sets the stop flag. -/
theorem claim6_stop_idempotent (m : TContainerMonitor) :
    (Stop m).2.2 = none ∧ (Stop (Stop m).1).2.2 = none ∧
    (Stop m).2.1 = [] ∧ (Stop (Stop m).1).2.1 = [] ∧
    (Stop (Stop m).1).1 = (Stop m).1 ∧
    (Stop m).1 = { m with stop := true } := by
  by_cases h : m.cli <;> simp [Stop, clientClose, h]

/-- C8: Exec returns the configuration error on an empty id, the connection
error when no client can be acquired, the inspect error when the label lookup
fails, launching no loop in each case; on success it stores the labels, clears
the stop flag, launches the loop and returns no error. -/
theorem claim8_exec_paths (env : InitEnv) (m : TContainerMonitor) :
    (m.Id = "" → Exec env m = (m, some ExecError.configurationError, false)) ∧
    (m.Id ≠ "" → env.newClient = none →
      Exec env m = (m, some ExecError.connectionError, false)) ∧
    (m.Id ≠ "" → env.newClient = some () → env.inspectLabels = none →
      Exec env m = ({ m with cli := true }, some ExecError.inspectError, false)) ∧
    (∀ lbls, m.Id ≠ "" → env.newClient = some () → env.inspectLabels = some lbls →
      Exec env m = ({ m with cli := true, Labels := lbls, stop := false }, none, true)) := by
  refine ⟨?_, ?_, ?_, ?_⟩
  · intro h
    simp [Exec, init, h]
  · intro h hc
    simp [Exec, init, h, hc]
  · intro h hc hi
    simp [Exec, init, h, hc, hi]
  · intro lbls h hc hi
    simp [Exec, init, h, hc, hi]

/-- Witness for C8 at one concrete monitor and environment per path. -/
theorem claim8_witness :
    Exec ⟨none, none⟩ { Id := "", Name := "", Labels := [], cli := false, stop := true } =
      ({ Id := "", Name := "", Labels := [], cli := false, stop := true },
       some ExecError.configurationError, false) ∧
    Exec ⟨none, none⟩ { Id := "c1", Name := "", Labels := [], cli := false, stop := true } =
      ({ Id := "c1", Name := "", Labels := [], cli := false, stop := true },
       some ExecError.connectionError, false) ∧
    Exec ⟨some (), none⟩ { Id := "c1", Name := "", Labels := [], cli := false, stop := true } =
      ({ Id := "c1", Name := "", Labels := [], cli := true, stop := true },
       some ExecError.inspectError, false) ∧
    Exec ⟨some (), some [("a", "b")]⟩
        { Id := "c1", Name := "", Labels := [], cli := false, stop := true } =
      ({ Id := "c1", Name := "", Labels := [("a", "b")], cli := true, stop := false },
       none, true) :=
  ⟨(claim8_exec_paths _ _).1 rfl,
   (claim8_exec_paths _ _).2.1 (by decide) rfl,
   (claim8_exec_paths _ _).2.2.1 (by decide) rfl rfl,
   (claim8_exec_paths _ _).2.2.2 [("a", "b")] (by decide) rfl rfl⟩

/-- C3 is refuted by the second copy of GetOpt: on an unknown option name it
mutates the monitor, setting Id to the string 0 and clearing Name, instead of
leaving every field unchanged. -/
theorem claim3_getOpt2_mutates :
    GetOpt2 { Id := "abcdefabcdef", Name := "web", Labels := [("k", "v")],
              cli := true, stop := false } "cpu" =
      ({ Id := "0", Name := "", Labels := [("k", "v")], cli := true, stop := false },
       none) := by
  decide

/-- C1 is refuted by the second copy of readStream: with the stream open, a
tick whose decode succeeds but whose status query fails makes the loop return
(the run is finished), yet no onRemove event is emitted. -/
theorem claim1_readStream2_skips_onRemove :
    readStream2 true
      { Id := "bbbbbbbbbbbb", Name := "b", Labels := [], cli := true, stop := false }
      [{ stopRequested := false,
         decode := DecodeResult.ok
           { Id := "bbbbbbbbbbbb", Name := "b", CPUStats := ⟨⟨0, []⟩, 0⟩,
             CPUStatsPre := ⟨⟨0, []⟩, 0⟩, MemoryStats := ⟨0, 0⟩,
             Labels := [], RunningState := "" },
         inspect := none }] =
      ({ Id := "bbbbbbbbbbbb", Name := "b", Labels := [], cli := true, stop := false },
       [], StreamOutcome.finished) := by
  decide

/-- Modelled from the spec: the Monitor Registry type ThreadList. Its
implementing file is not among the sources (main.go only calls it), so the
registry is modelled from spec section 4.1: a mapping container id → monitor
handle with at most one handle per id. -/
abbrev ThreadList := List (String × TContainerMonitor)

/-- Modelled from the spec: the registry duplicate-insert error
(AlreadyMonitored). -/
inductive RegistryError where
  | alreadyMonitored
deriving DecidableEq

namespace ThreadList

/-- Modelled from the spec: Exists(id), membership test on the registry. -/
def Exists (tl : ThreadList) (id : String) : Bool :=
  tl.any (fun p => p.1 == id)

/-- Modelled from the spec: Get(id), lookup without mutation. -/
def Get (tl : ThreadList) (id : String) : Option TContainerMonitor :=
  (tl.find? (fun p => p.1 == id)).map Prod.snd

/-- Modelled from the spec: Put(id, handle) inserts; fails with
AlreadyMonitored if id is already present; does not overwrite. -/
def Put (tl : ThreadList) (id : String) (h : TContainerMonitor) :
    ThreadList × Option RegistryError :=
  if Exists tl id then (tl, some RegistryError.alreadyMonitored)
  else (tl ++ [(id, h)], none)

/-- Modelled from the spec: Del(id) removes the entry if present, no-op
otherwise. -/
def Del (tl : ThreadList) (id : String) : ThreadList :=
  tl.filter (fun p => p.1 != id)

/-- Modelled from the spec: GetKeys(), a snapshot of the current ids. -/
def GetKeys (tl : ThreadList) : List String :=
  tl.map Prod.fst

/-- Modelled from the spec: StopAll() invokes Stop on every handle and removes
no entry. -/
def StopAll (tl : ThreadList) : ThreadList :=
  tl.map (fun p => (p.1, (Stop p.2).1))

end ThreadList

/-- Lookup after appending a fresh entry for an id that was absent. -/
theorem threadList_get_append_single (tl : ThreadList) (id : String)
    (h : TContainerMonitor) (hne : ThreadList.Exists tl id = false) :
    ThreadList.Get (tl ++ [(id, h)]) id = some h := by
  induction tl with
  | nil =>
    simp [ThreadList.Get, List.find?]
  | cons p ps ih =>
    simp only [ThreadList.Exists, List.any_cons, Bool.or_eq_false_iff] at hne
    simp only [List.cons_append, ThreadList.Get]
    rw [List.find?_cons_of_neg _ (by simp [hne.1])]
    exact ih hne.2

/-- Keys of the registry after a fresh insertion. -/
theorem threadList_keys_append_single (tl : ThreadList) (id : String)
    (h : TContainerMonitor) :
    ThreadList.GetKeys (tl ++ [(id, h)]) = ThreadList.GetKeys tl ++ [id] := by
  simp [ThreadList.GetKeys]

/-- Exists agrees with membership in the key snapshot. -/
theorem threadList_exists_iff_mem_keys (tl : ThreadList) (id : String) :
    ThreadList.Exists tl id = true ↔ id ∈ ThreadList.GetKeys tl := by
  simp [ThreadList.Exists, ThreadList.GetKeys, List.any_eq_true, beq_iff_eq]

/-- C2: a Put for a present id returns AlreadyMonitored and leaves the
registry (hence the originally stored handle) unchanged; a Put for an absent
id succeeds, appends the entry, and the new handle is retrievable; Put
preserves key uniqueness. -/
theorem claim2_put_unique (tl : ThreadList) (id : String) (h : TContainerMonitor) :
    (ThreadList.Exists tl id = true →
      ThreadList.Put tl id h = (tl, some RegistryError.alreadyMonitored)) ∧
    (ThreadList.Exists tl id = false →
      ThreadList.Put tl id h = (tl ++ [(id, h)], none) ∧
      ThreadList.Get (ThreadList.Put tl id h).1 id = some h) ∧
    ((ThreadList.GetKeys tl).Nodup →
      (ThreadList.GetKeys (ThreadList.Put tl id h).1).Nodup) := by
  refine ⟨?_, ?_, ?_⟩
  · intro hex
    simp [ThreadList.Put, hex]
  · intro hex
    have hput : ThreadList.Put tl id h = (tl ++ [(id, h)], none) := by
      simp [ThreadList.Put, hex]
    refine ⟨hput, ?_⟩
    rw [hput]
    exact threadList_get_append_single tl id h hex
  · intro hnd
    by_cases hex : ThreadList.Exists tl id
    · simpa [ThreadList.Put, hex] using hnd
    · have hex2 : ThreadList.Exists tl id = false := by simpa using hex
      have hput : (ThreadList.Put tl id h).1 = tl ++ [(id, h)] := by
        simp [ThreadList.Put, hex2]
      rw [hput, threadList_keys_append_single]
      refine List.Nodup.append hnd (List.nodup_singleton id) ?_
      intro a ha hb
      rw [List.mem_singleton] at hb
      subst hb
      rw [← threadList_exists_iff_mem_keys] at ha
      simp [ha] at hex2

/-- Witness for C2 on a concrete one-entry registry. -/
theorem claim2_witness :
    ThreadList.Put [("A", { Id := "A", Name := "", Labels := [], cli := true, stop := false })]
        "A" { Id := "A", Name := "x", Labels := [], cli := false, stop := false } =
      ([("A", { Id := "A", Name := "", Labels := [], cli := true, stop := false })],
       some RegistryError.alreadyMonitored) ∧
    ThreadList.Put [("A", { Id := "A", Name := "", Labels := [], cli := true, stop := false })]
        "B" { Id := "B", Name := "", Labels := [], cli := true, stop := false } =
      ([("A", { Id := "A", Name := "", Labels := [], cli := true, stop := false }),
        ("B", { Id := "B", Name := "", Labels := [], cli := true, stop := false })], none) ∧
    ThreadList.Get
        (ThreadList.Put [("A", { Id := "A", Name := "", Labels := [], cli := true, stop := false })]
          "B" { Id := "B", Name := "", Labels := [], cli := true, stop := false }).1 "B" =
      some { Id := "B", Name := "", Labels := [], cli := true, stop := false } :=
  ⟨(claim2_put_unique _ _ _).1 (by decide),
   ((claim2_put_unique _ _ _).2.1 (by decide)).1,
   ((claim2_put_unique _ _ _).2.1 (by decide)).2⟩

/-- Go string slice expression s[0:12]: defined only when the string has at
least 12 characters; slicing a shorter string panics, modelled as none. -/
def slice12 (s : String) : Option String :=
  if 12 ≤ s.length then some (s.take 12) else none

/-- Word characters as understood by the label regex [\W-]. -/
def isWordChar (c : Char) : Bool :=
  c.isAlphanum || c == '_'

/-- labelRegex.ReplaceAllLiteralString(s, _): replace every non-word character
(and hyphen, itself a non-word character) by an underscore. -/
def normalizeLabel (s : String) : String :=
  s.map (fun c => if isWordChar c then c else '_')

/-- getLabels from main.go (lines 52-72): split the scrape-labels environment
variable on commas after trimming, drop empty entries, optionally normalize,
then prepend id and name. -/
def getLabels (normalize : Bool) (envVar : String) : List String :=
  let labels := envVar.trim.splitOn ","
  let res := labels.foldr
    (fun lbl acc =>
      if lbl = "" then acc
      else (if normalize then normalizeLabel lbl else lbl) :: acc) []
  "id" :: "name" :: res

/-- strings.Replace(s, slash, empty, 1): drop the first slash character. -/
def removeFirstSlash : List Char → List Char
  | [] => []
  | c :: cs => if c == '/' then cs else c :: removeFirstSlash cs

/-- String form of the single-slash removal. -/
def replaceFirstSlashStr (s : String) : String :=
  String.mk (removeFirstSlash s.data)

/-- Label-map construction loop of containerStatisticRead (main.go lines
246-264): id is sliced to twelve characters (a panic, none, when shorter),
name loses its leading slash, and any other scrape label is normalized and
looked up in the snapshot labels, defaulting to the empty string. -/
def buildStatLabels (stat : TContainerStatistic) : List String → Option (List (String × String))
  | [] => some []
  | l :: ls =>
    if l = "id" then
      match slice12 stat.Id with
      | none => none
      | some s => (buildStatLabels stat ls).map (fun r => ("id", s) :: r)
    else if l = "name" then
      (buildStatLabels stat ls).map (fun r => ("name", replaceFirstSlashStr stat.Name) :: r)
    else
      (buildStatLabels stat ls).map
        (fun r =>
          (normalizeLabel l,
           ((stat.Labels.find? (fun p => p.1 == l)).map Prod.snd).getD "") :: r)

/-- containerStatisticRead from main.go (lines 245-271): build the label set
over the configured scrape labels, then the five gauge updates keyed by metric
name. A none result models the out-of-range slice panic. -/
def containerStatisticRead (scrapeLabels : List String) (stat : TContainerStatistic) :
    Option (List (String × String) × List (String × ℚ)) :=
  match buildStatLabels stat scrapeLabels with
  | none => none
  | some labels =>
    some (labels,
      [("memory_usage", (stat.MemoryStats.Usage : ℚ)),
       ("memory_limit", (stat.MemoryStats.Limit : ℚ)),
       ("cpu_total", (stat.CPUStats.CPUUsage.TotalUsage : ℚ)),
       ("cpu_pcnt", calculateCPUPercentUnix stat),
       ("running_stats", stateToValue stat.RunningState)])

/-- containerStopped from main.go (lines 273-301), the OnRemoved handler: the
opening log statement slices containerId[0:12] (a panic, none, when shorter);
an unmonitored id just returns; otherwise the handle is stopped, the id is
deleted from the registry, and the metric-deletion labels are built from the
handle's name option. Result: the registry after the handler and the deletion
labels (none when no metrics were cleared). -/
def containerStopped (tl : ThreadList) (containerId : String) :
    Option (ThreadList × Option (List (String × String))) :=
  match slice12 containerId with
  | none => none
  | some short =>
    match ThreadList.Get tl containerId with
    | none => some (tl, none)
    | some thread =>
      let thread1 := (Stop thread).1
      let tl1 := ThreadList.Del tl containerId
      match (GetOpt thread1 "name").2 with
      | none => none
      | some o =>
        match o.Value with
        | OptValue.str s =>
          some (tl1, some [("id", short), ("name", replaceFirstSlashStr s)])
        | OptValue.labels _ => none

/-- C9: both Metric Sink handlers slice the container id to twelve characters
without any length check, so a snapshot id or a removal id shorter than twelve
characters panics (none), for every scrape-label configuration and registry. -/
theorem claim9_short_id_panics (envVar : String) (stat : TContainerStatistic)
    (tl : ThreadList) (id : String)
    (h1 : stat.Id.length < 12) (h2 : id.length < 12) :
    containerStatisticRead (getLabels false envVar) stat = none ∧
    containerStopped tl id = none := by
  constructor
  · have hs : slice12 stat.Id = none := by
      simp only [slice12, ite_eq_right_iff]
      intro hle
      omega
    simp [containerStatisticRead, getLabels, buildStatLabels, hs]
  · have hs : slice12 id = none := by
      simp only [slice12, ite_eq_right_iff]
      intro hle
      omega
    simp [containerStopped, hs]

/-- Witness for C9 at a three-character container id. -/
theorem claim9_witness :
    containerStatisticRead (getLabels false "")
      { Id := "abc", Name := "n", CPUStats := ⟨⟨0, []⟩, 0⟩,
        CPUStatsPre := ⟨⟨0, []⟩, 0⟩, MemoryStats := ⟨0, 0⟩,
        Labels := [], RunningState := "running" } = none ∧
    containerStopped [] "abc" = none :=
  claim9_short_id_panics ""
    { Id := "abc", Name := "n", CPUStats := ⟨⟨0, []⟩, 0⟩,
      CPUStatsPre := ⟨⟨0, []⟩, 0⟩, MemoryStats := ⟨0, 0⟩,
      Labels := [], RunningState := "running" }
    [] "abc" (by decide) (by decide)

/-- Fresh monitor as constructed by the reconciliation loop (main.go lines
168-171); the two callback fields are wired to the Metric Sink handlers, which
the embedding records through the Event stream. -/
def newMonitor (id : String) : TContainerMonitor :=
  { Id := id, Name := "", Labels := [], cli := false, stop := false }

/-- Start phase of one reconciliation cycle (main.go lines 163-181): each live
container id not yet registered gets a fresh monitor Exec-ed; on success the
monitor is Put into the registry, on failure it is left unregistered. -/
def startPhase (env : String → InitEnv) (tl : ThreadList) : List String → ThreadList
  | [] => tl
  | id :: rest =>
    if ThreadList.Exists tl id then startPhase env tl rest
    else
      match Exec (env id) (newMonitor id) with
      | (_, some _, _) => startPhase env tl rest
      | (mon, none, _) => startPhase env (ThreadList.Put tl id mon).1 rest

/-- Stop phase of one reconciliation cycle (main.go lines 183-198): every
registered id absent from the live list has Stop invoked on its stored handle
(the Go code mutates through the stored pointer); no entry is deleted. The
second component lists the ids that were stopped. -/
def stopPhase (live : List String) (tl : ThreadList) : ThreadList × List String :=
  (tl.map (fun p => if live.contains p.1 then p else (p.1, (Stop p.2).1)),
   (ThreadList.GetKeys tl).filter (fun id => !live.contains id))

/-- One full reconciliation cycle: start new monitors, then stop vanished
ones. -/
def reconcileCycle (env : String → InitEnv) (live : List String) (tl : ThreadList) :
    ThreadList × List String :=
  stopPhase live (startPhase env tl live)

/-- Stop only sets the stop flag on the monitor state. -/
theorem stop_state (m : TContainerMonitor) : (Stop m).1 = { m with stop := true } := by
  by_cases h : m.cli <;> simp [Stop, h]

/-- Exists distributes over registry append. -/
theorem threadList_exists_append (tl l2 : ThreadList) (j : String) :
    ThreadList.Exists (tl ++ l2) j =
      (ThreadList.Exists tl j || ThreadList.Exists l2 j) := by
  simp [ThreadList.Exists]

/-- Registry shape of a Put for an absent id. -/
theorem threadList_put_fst_of_absent (tl : ThreadList) (id : String)
    (h : TContainerMonitor) (hne : ThreadList.Exists tl id = false) :
    (ThreadList.Put tl id h).1 = tl ++ [(id, h)] := by
  simp [ThreadList.Put, hne]

/-- The start phase never removes a registered id. -/
theorem startPhase_exists_mono (env : String → InitEnv) (live : List String) (j : String) :
    ∀ tl : ThreadList, ThreadList.Exists tl j = true →
      ThreadList.Exists (startPhase env tl live) j = true := by
  induction live with
  | nil =>
    intro tl hj
    simpa [startPhase] using hj
  | cons i rest ih =>
    intro tl hj
    simp only [startPhase]
    by_cases hex : ThreadList.Exists tl i
    · rw [if_pos hex]
      exact ih tl hj
    · rw [if_neg hex]
      rcases hE : Exec (env i) (newMonitor i) with ⟨m1, e, b⟩
      cases e with
      | some err =>
        exact ih tl hj
      | none =>
        apply ih
        rw [threadList_put_fst_of_absent tl i m1 (by simpa using hex),
          threadList_exists_append, hj]
        rfl

/-- The stop phase rewrites each entry value in place, keeping its key. -/
theorem stopPhase_map_eq (live : List String) (tl : ThreadList) :
    (stopPhase live tl).1 =
      tl.map (fun p => (p.1, if live.contains p.1 then p.2 else (Stop p.2).1)) := by
  simp only [stopPhase]
  congr 1
  funext p
  by_cases h : p.1 ∈ live <;> simp [h]

/-- Lookup through a value-rewriting map over the registry. -/
theorem threadList_get_map_val (g : String → TContainerMonitor → TContainerMonitor)
    (tl : ThreadList) (j : String) :
    ThreadList.Get (tl.map (fun p => (p.1, g p.1 p.2))) j =
      (ThreadList.Get tl j).map (g j) := by
  induction tl with
  | nil =>
    simp [ThreadList.Get]
  | cons p ps ih =>
    by_cases hj : (p.1 == j)
    · have hpj : p.1 = j := by simpa using hj
      subst hpj
      simp [ThreadList.Get, List.find?_cons_of_pos]
    · have hj2 : (p.1 == j) = false := by simpa using hj
      simpa [ThreadList.Get, List.find?_cons, hj2] using ih

/-- The stop phase leaves registry membership unchanged. -/
theorem stopPhase_exists (live : List String) (tl : ThreadList) (j : String) :
    ThreadList.Exists (stopPhase live tl).1 j = ThreadList.Exists tl j := by
  rw [stopPhase_map_eq]
  simp only [ThreadList.Exists, List.any_map]
  rfl

/-- Lookup after the stop phase: absent-from-live entries come back stopped. -/
theorem stopPhase_get (live : List String) (tl : ThreadList) (j : String) :
    ThreadList.Get (stopPhase live tl).1 j =
      (ThreadList.Get tl j).map (fun m => if live.contains j then m else (Stop m).1) := by
  rw [stopPhase_map_eq]
  exact threadList_get_map_val (fun id m => if live.contains id then m else (Stop m).1) tl j

/-- A registered id has a retrievable handle. -/
theorem threadList_get_isSome_of_exists (tl : ThreadList) (id : String)
    (h : ThreadList.Exists tl id = true) : (ThreadList.Get tl id).isSome := by
  induction tl with
  | nil =>
    simp [ThreadList.Exists] at h
  | cons p ps ih =>
    cases hj : (p.1 == id) with
    | true =>
      simp [ThreadList.Get, List.find?_cons, hj]
    | false =>
      have h2 : ThreadList.Exists ps id = true := by
        simpa [ThreadList.Exists, List.any_cons, hj] using h
      simpa [ThreadList.Get, List.find?_cons, hj] using ih h2

/-- C7: during one reconciliation cycle every registered id absent from the
live set has Stop invoked (it is listed as stopped and its stored handle comes
out with the stop flag set), the cycle deletes nothing from the registry, and
registry deletion is performed by the OnRemoved handler containerStopped. -/
theorem claim7_reconcile_divergence (env : String → InitEnv) (live : List String)
    (tl : ThreadList) (id : String)
    (hreg : ThreadList.Exists tl id = true) (hlive : live.contains id = false) :
    id ∈ (reconcileCycle env live tl).2 ∧
    ThreadList.Exists (reconcileCycle env live tl).1 id = true ∧
    (∀ m, ThreadList.Get (reconcileCycle env live tl).1 id = some m → m.stop = true) ∧
    (∀ j, ThreadList.Exists tl j = true →
      ThreadList.Exists (reconcileCycle env live tl).1 j = true) ∧
    (12 ≤ id.length →
      (containerStopped tl id).map Prod.fst = some (ThreadList.Del tl id)) := by
  have htl1 : ThreadList.Exists (startPhase env tl live) id = true :=
    startPhase_exists_mono env live id tl hreg
  refine ⟨?_, ?_, ?_, ?_, ?_⟩
  · show id ∈ (stopPhase live (startPhase env tl live)).2
    simp only [stopPhase, List.mem_filter]
    refine ⟨(threadList_exists_iff_mem_keys _ _).mp htl1, ?_⟩
    simpa using hlive
  · show ThreadList.Exists (stopPhase live (startPhase env tl live)).1 id = true
    rw [stopPhase_exists]
    exact htl1
  · intro m hm
    rw [show (reconcileCycle env live tl).1 = (stopPhase live (startPhase env tl live)).1 from rfl,
      stopPhase_get] at hm
    rcases hg : ThreadList.Get (startPhase env tl live) id with _ | m0
    · rw [hg] at hm
      simp at hm
    · rw [hg] at hm
      have hnl : id ∉ live := by simpa using hlive
      simp [hnl] at hm
      rw [← hm, stop_state]
  · intro j hj
    show ThreadList.Exists (stopPhase live (startPhase env tl live)).1 j = true
    rw [stopPhase_exists]
    exact startPhase_exists_mono env live j tl hj
  · intro hlen
    have hs := threadList_get_isSome_of_exists tl id hreg
    obtain ⟨th, hth⟩ := Option.isSome_iff_exists.mp hs
    simp [containerStopped, slice12, hlen, hth, GetOpt]

/-- Witness for C7 at the spec example: live set A, registry A and B; after
one cycle B is listed as stopped yet still registered, and the OnRemoved
handler is what deletes B. -/
theorem claim7_witness :
    "BBBBBBBBBBBB" ∈
      (reconcileCycle (fun _ => ⟨some (), some []⟩) ["AAAAAAAAAAAA"]
        [("AAAAAAAAAAAA", { Id := "AAAAAAAAAAAA", Name := "a", Labels := [], cli := true, stop := false }),
         ("BBBBBBBBBBBB", { Id := "BBBBBBBBBBBB", Name := "b", Labels := [], cli := true, stop := false })]).2 ∧
    ThreadList.Exists
      (reconcileCycle (fun _ => ⟨some (), some []⟩) ["AAAAAAAAAAAA"]
        [("AAAAAAAAAAAA", { Id := "AAAAAAAAAAAA", Name := "a", Labels := [], cli := true, stop := false }),
         ("BBBBBBBBBBBB", { Id := "BBBBBBBBBBBB", Name := "b", Labels := [], cli := true, stop := false })]).1
      "BBBBBBBBBBBB" = true ∧
    (containerStopped
        [("AAAAAAAAAAAA", { Id := "AAAAAAAAAAAA", Name := "a", Labels := [], cli := true, stop := false }),
         ("BBBBBBBBBBBB", { Id := "BBBBBBBBBBBB", Name := "b", Labels := [], cli := true, stop := false })]
        "BBBBBBBBBBBB").map Prod.fst =
      some (ThreadList.Del
        [("AAAAAAAAAAAA", { Id := "AAAAAAAAAAAA", Name := "a", Labels := [], cli := true, stop := false }),
         ("BBBBBBBBBBBB", { Id := "BBBBBBBBBBBB", Name := "b", Labels := [], cli := true, stop := false })]
        "BBBBBBBBBBBB") := by
  have h := claim7_reconcile_divergence (fun _ => ⟨some (), some []⟩) ["AAAAAAAAAAAA"]
    [("AAAAAAAAAAAA", { Id := "AAAAAAAAAAAA", Name := "a", Labels := [], cli := true, stop := false }),
     ("BBBBBBBBBBBB", { Id := "BBBBBBBBBBBB", Name := "b", Labels := [], cli := true, stop := false })]
    "BBBBBBBBBBBB" (by decide) (by decide)
  exact ⟨h.1, h.2.1, h.2.2.2.2 (by decide)⟩

/-- Number of onRemove invocations in an event trace. -/
def removeCount (evs : List Event) : Nat :=
  (evs.filter (fun e =>
    match e with
    | Event.onRemove _ => true
    | Event.onStatRead _ => false)).length

/-- The first copy's loop body itself never invokes OnRemove. -/
theorem runLoop1_removeCount (ticks : List Tick) :
    ∀ m : TContainerMonitor, removeCount (runLoop1 m ticks).2.1 = 0 := by
  induction ticks with
  | nil =>
    intro m
    simp [runLoop1, removeCount]
  | cons t ts ih =>
    intro m
    by_cases hstop : (if t.stopRequested then (Stop m).1 else m).stop = true
    · simp [runLoop1, hstop, removeCount]
    · cases hd : t.decode with
      | eof => simp [runLoop1, hstop, hd, removeCount]
      | err msg => simp [runLoop1, hstop, hd, removeCount]
      | ok stat =>
        cases hi : t.inspect with
        | none => simp [runLoop1, hstop, hd, hi, removeCount]
        | some status =>
          simp only [runLoop1, hd, hi, if_neg hstop]
          simpa [removeCount] using ih _

/-- The second copy's loop body itself never invokes OnRemove. -/
theorem runLoop2_removeCount (ticks : List Tick) :
    ∀ m : TContainerMonitor, removeCount (runLoop2 m ticks).2.1 = 0 := by
  induction ticks with
  | nil =>
    intro m
    simp [runLoop2, removeCount]
  | cons t ts ih =>
    intro m
    by_cases hstop : (if t.stopRequested then (Stop m).1 else m).stop = true
    · simp [runLoop2, hstop, removeCount]
    · cases hd : t.decode with
      | eof => simp [runLoop2, hstop, hd, removeCount]
      | err msg => simp [runLoop2, hstop, hd, removeCount]
      | ok stat =>
        cases hi : t.inspect with
        | none => simp [runLoop2, hstop, hd, hi, removeCount]
        | some status =>
          simp only [runLoop2, hd, hi, if_neg hstop]
          simpa [removeCount] using ih _

/-- First copy: once the stream is open, OnRemove fires exactly once whenever
the loop terminates within the trace, and not before. -/
theorem readStream1_onRemove_exactly_once (m : TContainerMonitor) (ticks : List Tick) :
    removeCount (readStream1 true m ticks).2.1 =
      if (readStream1 true m ticks).2.2 = StreamOutcome.finished then 1 else 0 := by
  have h0 := runLoop1_removeCount ticks m
  rcases h : runLoop1 m ticks with ⟨m1, evs, ex⟩
  rw [h] at h0
  cases ex with
  | terminated =>
    simp only [readStream1, if_pos, h]
    simpa [removeCount, List.filter_append] using h0
  | exhausted =>
    simp only [readStream1, if_pos, h]
    simpa using h0

/-- Second copy: OnRemove fires exactly on the break paths; a loop exit via
the bare return (failed status query) emits none. -/
theorem readStream2_onRemove_count (m : TContainerMonitor) (ticks : List Tick) :
    removeCount (readStream2 true m ticks).2.1 =
      if (runLoop2 m ticks).2.2 = Exit2.broke then 1 else 0 := by
  have h0 := runLoop2_removeCount ticks m
  rcases h : runLoop2 m ticks with ⟨m1, evs, ex⟩
  rw [h] at h0
  cases ex with
  | broke =>
    simp only [readStream2, if_pos, h]
    simpa [removeCount, List.filter_append] using h0
  | returned =>
    simp only [readStream2, if_pos, h]
    simpa using h0
  | exhausted =>
    simp only [readStream2, if_pos, h]
    simpa using h0

end ContainerMonitor
